import Mathlib

/-
  Verification development for the Intrinio realtime Go SDK client
  (the `intriniorealtime` package): the provider adapter functions, the
  client state, the channel-subscription reconciler and the connection
  lifecycle entry points.

  Modelling conventions.  Go maps `map[string]bool` are modelled as
  lists of their keys (insertion ordered; duplicate-free in every
  reachable state).  The outbound message queue `q` is modelled as the
  trace `sent` of messages enqueued so far, in order; enqueuing a
  message produced by `makeJoinMessage`/`makeLeaveMessage` is recorded
  as a tagged `SubMsg`, whose wire form `SubMsg.wire` is exactly the
  adapter's output.  The websocket pointer is modelled by the Boolean
  `ws` (`cli.ws != nil`).  A `panic` in the adapter is modelled as
  `Option.none`.  `strings.TrimSpace` is modelled by `String.trim`
  (both strip leading/trailing whitespace).
-/

namespace IntrinioRealtime

/-- Go: `type provider string`. -/
structure Provider where
  val : String
deriving DecidableEq, Repr

/-- Go: `IEX provider = "iex"`. -/
def IEX : Provider := ⟨"iex"⟩

/-- Go: `QUODD provider = "quodd"`. -/
def QUODD : Provider := ⟨"quodd"⟩

def cQUODDRealtimeTokenURL : String := "https://api.intrinio.com/token?type=QUODD"

def cQUODDWebsocketURL : String := "wss://www5.quodd.com/websocket/webStreamer/intrinio"

def cIEXRealtimeTokenURL : String := "https://realtime.intrinio.com/auth"

def cIEXWebsocketURL : String := "wss://realtime.intrinio.com/socket/websocket"

/-- The shape of the Go `map[string]interface{}` wire messages. -/
inductive Json where
  | str : String → Json
  | int : Int → Json
  | null : Json
  | obj : List (String × Json) → Json

/-- Go `func makeAuthURL(provider provider) string`; the `default:
panic(...)` branch is modelled as `none`. -/
def makeAuthURL (p : Provider) : Option String :=
  if p = IEX then some cIEXRealtimeTokenURL
  else if p = QUODD then some cQUODDRealtimeTokenURL
  else none

/-- Go `func makeSoketURL(provider provider, token string) string`;
`fmt.Sprintf` interpolation written out; `panic` modelled as `none`. -/
def makeSoketURL (p : Provider) (token : String) : Option String :=
  if p = IEX then some (cIEXWebsocketURL ++ "?vsn=1.0.0&token=" ++ token)
  else if p = QUODD then some (cQUODDWebsocketURL ++ "/" ++ token)
  else none

/-- Go `func parseTopic(channel string) string`. -/
def parseTopic (channel : String) : String :=
  if channel = "$lobby" then "iex:lobby"
  else if channel = "$lobby_last_price" then "iex:lobby:last_price"
  else "iex:securities:" ++ channel

/-- Go `func makeJoinMessage(provider provider, channel string)
map[string]interface{}`; `panic` modelled as `none`. -/
def makeJoinMessage (p : Provider) (channel : String) : Option Json :=
  if p = IEX then
    some (.obj [("topic", .str (parseTopic channel)),
                ("event", .str "phx_join"),
                ("payload", .obj []),
                ("ref", .null)])
  else if p = QUODD then
    some (.obj [("event", .str "subscribe"),
                ("data", .obj [("ticker", .str channel),
                               ("action", .str "subscribe")])])
  else none

/-- Go `func makeLeaveMessage(provider provider, channel string)
map[string]interface{}`; `panic` modelled as `none`. -/
def makeLeaveMessage (p : Provider) (channel : String) : Option Json :=
  if p = IEX then
    some (.obj [("topic", .str (parseTopic channel)),
                ("event", .str "phx_leave"),
                ("payload", .obj []),
                ("ref", .null)])
  else if p = QUODD then
    some (.obj [("event", .str "unsubscribe"),
                ("data", .obj [("ticker", .str channel),
                               ("action", .str "unsubscribe")])])
  else none

/-- Go `func makeHeartbeatMessage(provider provider)
map[string]interface{}`; the wall clock `time.Now().Unix()` is passed
in as `now`; `panic` modelled as `none`. -/
def makeHeartbeatMessage (p : Provider) (now : Int) : Option Json :=
  if p = IEX then
    some (.obj [("topic", .str "phoenix"),
                ("event", .str "heartbeat"),
                ("payload", .obj []),
                ("ref", .null)])
  else if p = QUODD then
    some (.obj [("event", .str "heartbeat"),
                ("data", .obj [("action", .str "heartbeat"),
                               ("ticker", .int now)])])
  else none

/-- A message enqueued on `cli.q` by `refreshChannels`, tagged by which
adapter call produced it; `wire` recovers the wire form. -/
inductive SubMsg where
  | joinMsg : Provider → String → SubMsg
  | leaveMsg : Provider → String → SubMsg
deriving DecidableEq, Repr

/-- The wire form of an enqueued subscription message: exactly the
adapter's output for it. -/
def SubMsg.wire : SubMsg → Option Json
  | .joinMsg p c => makeJoinMessage p c
  | .leaveMsg p c => makeLeaveMessage p c

/-- Key insertion on a Go-map-as-key-list: `if _, ok := m[k]; !ok
\x7b m[k] = true \x7d`. -/
def mapInsert (k : String) (m : List String) : List String :=
  if k ∈ m then m else m ++ [k]

/-- Key deletion on a Go-map-as-key-list: `delete(m, k)`. -/
def mapDelete (k : String) (m : List String) : List String :=
  m.filter (fun x => x ≠ k)

/-- Go `strings.TrimSpace`: the string with all leading and trailing
white space removed, modelled on the character list. -/
def trimSpace (s : String) : String :=
  ⟨((s.data.dropWhile Char.isWhitespace).reverse.dropWhile Char.isWhitespace).reverse⟩

/-- Go `type Client struct`: `channels` and `joinedChannels` are the
key lists of the two maps, `ws` records whether the socket is non-nil,
`sent` is the trace of messages enqueued on `q`. -/
structure Client where
  debugMode : Bool
  username : String
  password : String
  provider : Provider
  token : String
  ws : Bool
  channels : List String
  joinedChannels : List String
  closing : Bool
  sent : List SubMsg
deriving DecidableEq, Repr

/-- Go `func New(username, password string, provider provider)
*Client`. -/
def New (username password : String) (p : Provider) : Client :=
  { debugMode := false
    username := username
    password := password
    provider := p
    token := ""
    ws := false
    channels := []
    joinedChannels := []
    closing := false
    sent := [] }

/-- Go `func (cli *Client) Connected() bool \x7b return cli.ws != nil \x7d`. -/
def Connected (cli : Client) : Bool := cli.ws

/-- Go `func (cli *Client) refreshChannels()`: no-op when not
connected; otherwise enqueue a join for every desired channel not yet
joined, then a leave for every joined channel no longer desired, then
rebuild `joinedChannels` from `channels`. -/
def refreshChannels (cli : Client) : Client :=
  if Connected cli = false then cli
  else
    let joins := (cli.channels.filter
        (fun k => !decide (k ∈ cli.joinedChannels))).map
      (fun k => SubMsg.joinMsg cli.provider k)
    let leaves := (cli.joinedChannels.filter
        (fun k => !decide (k ∈ cli.channels))).map
      (fun k => SubMsg.leaveMsg cli.provider k)
    { cli with
      sent := cli.sent ++ joins ++ leaves
      joinedChannels := cli.channels }

/-- The loop body of Go `Join`: trim each argument and insert it into
`channels` when absent. -/
def joinChannels (cli : Client) (channels : List String) : Client :=
  channels.foldl
    (fun c channel => { c with channels := mapInsert (trimSpace channel) c.channels })
    cli

/-- Go `func (cli *Client) Join(channels ...string)`. -/
def Join (cli : Client) (channels : List String) : Client :=
  refreshChannels (joinChannels cli channels)

/-- The loop body of Go `Leave`: delete the trimmed argument from
`channels`. -/
def leaveChannels (cli : Client) (channels : List String) : Client :=
  channels.foldl
    (fun c channel => { c with channels := mapDelete (trimSpace channel) c.channels })
    cli

/-- Go `func (cli *Client) Leave(channels ...string)`. -/
def Leave (cli : Client) (channels : List String) : Client :=
  refreshChannels (leaveChannels cli channels)

/-- Go `func (cli *Client) LeaveAll()`: `cli.channels = make(...)` then
reconcile. -/
def LeaveAll (cli : Client) : Client :=
  refreshChannels { cli with channels := [] }

/-- Go `func (cli *Client) Disconnect() error`, sequential summary of
the shutdown handshake: early return when not connected or already
closing; otherwise the sender goroutine drains `q`, closes the socket
(`cli.ws = nil`) and `onClosed` resets `closing`.  The function always
returns `nil` (`none`). -/
def Disconnect (cli : Client) : Option String × Client :=
  if Connected cli = false then (none, cli)
  else if cli.closing then (none, cli)
  else (none, { cli with ws := false, closing := false })

/-- A control-plane call in a Join/Leave/LeaveAll sequence. -/
inductive Op where
  | joinOp : List String → Op
  | leaveOp : List String → Op
  | leaveAllOp : Op
deriving DecidableEq, Repr

/-- Run one control-plane call (each performs its own reconciliation
pass, as in the Go code). -/
def applyOp (cli : Client) : Op → Client
  | .joinOp cs => Join cli cs
  | .leaveOp cs => Leave cli cs
  | .leaveAllOp => LeaveAll cli

/-- Run a sequence of control-plane calls. -/
def runOps (cli : Client) (ops : List Op) : Client :=
  ops.foldl applyOp cli

/-- Replay a message trace, tracking the channels whose last
subscription message is a join: a join inserts the channel, a leave
removes it. -/
def outstandingFrom (acc : List String) (msgs : List SubMsg) : List String :=
  msgs.foldl
    (fun acc m =>
      match m with
      | .joinMsg _ c => mapInsert c acc
      | .leaveMsg _ c => mapDelete c acc)
    acc

/-- The channels with an outstanding join in a trace: a join was
emitted for them and no later leave. -/
def outstanding (msgs : List SubMsg) : List String :=
  outstandingFrom [] msgs

/-- Does an operation possibly insert channel `c` into the desired
set (a `Join` whose trimmed arguments contain `c`)? -/
def opCanJoin (c : String) : Op → Bool
  | .joinOp cs => cs.any (fun ch => trimSpace ch = c)
  | .leaveOp _ => false
  | .leaveAllOp => false

/-- State invariant for a connected client between control-plane calls:
the channels with an outstanding join in the trace are exactly the
joined set, and the joined set agrees with the desired set (as holds
right after a reconciliation pass). -/
def GoodState (s : Client) : Prop :=
  Connected s = true ∧
  (∀ c, c ∈ outstanding s.sent ↔ c ∈ s.joinedChannels) ∧
  (∀ c, c ∈ s.joinedChannels ↔ c ∈ s.channels)

/-- A channel `c` neither desired nor joined, with its leave-message
count frozen at `n` (messages are tagged by the client's provider
`p`). -/
def AvoidsChannel (p : Provider) (c : String) (n : Nat) (t : Client) : Prop :=
  t.provider = p ∧ c ∉ t.channels ∧ c ∉ t.joinedChannels ∧
  t.sent.count (SubMsg.leaveMsg p c) = n

/-- A freshly constructed IEX client with an open socket, as right
after a successful `Connect`. -/
def sampleConnected : Client := { New "user" "pass" IEX with ws := true }

/-- A connected IEX client in mid-session: two desired channels and
two joined channels, one channel in each difference. -/
def sampleDiff : Client :=
  { New "user" "pass" IEX with
    ws := true
    channels := ["AAPL", "MSFT"]
    joinedChannels := ["MSFT", "GE"] }

/-- A connected IEX client with one channel both desired and joined. -/
def sampleJoined : Client :=
  { New "user" "pass" IEX with
    ws := true
    channels := ["AAPL"]
    joinedChannels := ["AAPL"] }

/-! ### Basic lemmas about the map model -/

theorem mem_mapInsert (a k : String) (m : List String) :
    a ∈ mapInsert k m ↔ a = k ∨ a ∈ m := by
  unfold mapInsert
  by_cases h : k ∈ m
  · simp only [if_pos h]
    constructor
    · exact Or.inr
    · rintro (rfl | hm)
      · exact h
      · exact hm
  · simp only [if_neg h, List.mem_append, List.mem_singleton]
    tauto

theorem mem_mapDelete (a k : String) (m : List String) :
    a ∈ mapDelete k m ↔ a ∈ m ∧ a ≠ k := by
  unfold mapDelete
  simp [List.mem_filter]

theorem mapDelete_of_not_mem (k : String) (m : List String) (h : k ∉ m) :
    mapDelete k m = m := by
  unfold mapDelete
  apply List.filter_eq_self.mpr
  intro a ha
  have hak : a ≠ k := fun e => h (e ▸ ha)
  simpa using hak

theorem mapInsert_of_mem (k : String) (m : List String) (h : k ∈ m) :
    mapInsert k m = m := by
  unfold mapInsert
  exact if_pos h

/-! ### Unfolding lemmas for the outstanding-join replay -/

theorem outstandingFrom_nil (acc : List String) : outstandingFrom acc [] = acc := rfl

theorem outstandingFrom_join_cons (acc : List String) (p : Provider) (c : String)
    (ms : List SubMsg) :
    outstandingFrom acc (SubMsg.joinMsg p c :: ms) = outstandingFrom (mapInsert c acc) ms := rfl

theorem outstandingFrom_leave_cons (acc : List String) (p : Provider) (c : String)
    (ms : List SubMsg) :
    outstandingFrom acc (SubMsg.leaveMsg p c :: ms) = outstandingFrom (mapDelete c acc) ms := rfl

theorem outstandingFrom_append (acc : List String) (a b : List SubMsg) :
    outstandingFrom acc (a ++ b) = outstandingFrom (outstandingFrom acc a) b := by
  unfold outstandingFrom
  exact List.foldl_append _ _ _ _

theorem mem_outstandingFrom_joins (p : Provider) (ks : List String) (acc : List String)
    (a : String) :
    a ∈ outstandingFrom acc (ks.map (fun k => SubMsg.joinMsg p k)) ↔ a ∈ ks ∨ a ∈ acc := by
  induction ks generalizing acc with
  | nil => simp [outstandingFrom_nil]
  | cons k ks ih =>
      rw [List.map_cons, outstandingFrom_join_cons, ih]
      simp only [mem_mapInsert, List.mem_cons]
      tauto

theorem mem_outstandingFrom_leaves (p : Provider) (ks : List String) (acc : List String)
    (a : String) :
    a ∈ outstandingFrom acc (ks.map (fun k => SubMsg.leaveMsg p k)) ↔ a ∈ acc ∧ a ∉ ks := by
  induction ks generalizing acc with
  | nil => simp [outstandingFrom_nil]
  | cons k ks ih =>
      rw [List.map_cons, outstandingFrom_leave_cons, ih]
      simp only [mem_mapDelete, List.mem_cons]
      tauto

/-! ### Counting tagged messages -/

theorem count_joinMsg_map_join (p : Provider) (ks : List String) (c : String) :
    (ks.map (fun k => SubMsg.joinMsg p k)).count (SubMsg.joinMsg p c) = ks.count c := by
  induction ks with
  | nil => rfl
  | cons k ks ih => simp [List.count_cons, ih]

theorem count_leaveMsg_map_leave (p : Provider) (ks : List String) (c : String) :
    (ks.map (fun k => SubMsg.leaveMsg p k)).count (SubMsg.leaveMsg p c) = ks.count c := by
  induction ks with
  | nil => rfl
  | cons k ks ih => simp [List.count_cons, ih]

theorem count_joinMsg_map_leave (p q : Provider) (ks : List String) (c : String) :
    (ks.map (fun k => SubMsg.leaveMsg q k)).count (SubMsg.joinMsg p c) = 0 := by
  rw [List.count_eq_zero]
  simp

theorem count_leaveMsg_map_join (p q : Provider) (ks : List String) (c : String) :
    (ks.map (fun k => SubMsg.joinMsg q k)).count (SubMsg.leaveMsg p c) = 0 := by
  rw [List.count_eq_zero]
  simp

/-! ### Frame lemmas for the Join/Leave loop bodies -/

theorem joinChannels_eq (cs : List String) (cli : Client) :
    joinChannels cli cs = { cli with channels := (joinChannels cli cs).channels } := by
  induction cs generalizing cli with
  | nil => rfl
  | cons c cs ih => exact ih _

theorem leaveChannels_eq (cs : List String) (cli : Client) :
    leaveChannels cli cs = { cli with channels := (leaveChannels cli cs).channels } := by
  induction cs generalizing cli with
  | nil => rfl
  | cons c cs ih => exact ih _

/-! ### Unfolding and frame lemmas for the reconciler -/

theorem refreshChannels_not_connected (cli : Client) (h : Connected cli = false) :
    refreshChannels cli = cli := by
  unfold refreshChannels
  rw [if_pos h]

theorem refreshChannels_connected (cli : Client) (h : Connected cli = true) :
    refreshChannels cli =
      { cli with
        sent := cli.sent
          ++ ((cli.channels.filter (fun k => !decide (k ∈ cli.joinedChannels))).map
              (fun k => SubMsg.joinMsg cli.provider k))
          ++ ((cli.joinedChannels.filter (fun k => !decide (k ∈ cli.channels))).map
              (fun k => SubMsg.leaveMsg cli.provider k))
        joinedChannels := cli.channels } := by
  unfold refreshChannels
  rw [if_neg (by simp [h])]

theorem refreshChannels_channels (cli : Client) :
    (refreshChannels cli).channels = cli.channels := by
  unfold refreshChannels
  split <;> rfl

theorem refreshChannels_ws (cli : Client) :
    (refreshChannels cli).ws = cli.ws := by
  unfold refreshChannels
  split <;> rfl

theorem refreshChannels_provider (cli : Client) :
    (refreshChannels cli).provider = cli.provider := by
  unfold refreshChannels
  split <;> rfl

theorem refreshChannels_joined (cli : Client) (h : Connected cli = true) :
    (refreshChannels cli).joinedChannels = cli.channels := by
  rw [refreshChannels_connected cli h]

theorem joinChannels_ws (cs : List String) (cli : Client) :
    (joinChannels cli cs).ws = cli.ws := by
  induction cs generalizing cli with
  | nil => rfl
  | cons ch cs ih => exact ih _

theorem joinChannels_sent (cs : List String) (cli : Client) :
    (joinChannels cli cs).sent = cli.sent := by
  induction cs generalizing cli with
  | nil => rfl
  | cons ch cs ih => exact ih _

theorem joinChannels_joined (cs : List String) (cli : Client) :
    (joinChannels cli cs).joinedChannels = cli.joinedChannels := by
  induction cs generalizing cli with
  | nil => rfl
  | cons ch cs ih => exact ih _

theorem joinChannels_provider (cs : List String) (cli : Client) :
    (joinChannels cli cs).provider = cli.provider := by
  induction cs generalizing cli with
  | nil => rfl
  | cons ch cs ih => exact ih _

theorem leaveChannels_ws (cs : List String) (cli : Client) :
    (leaveChannels cli cs).ws = cli.ws := by
  induction cs generalizing cli with
  | nil => rfl
  | cons ch cs ih => exact ih _

theorem leaveChannels_sent (cs : List String) (cli : Client) :
    (leaveChannels cli cs).sent = cli.sent := by
  induction cs generalizing cli with
  | nil => rfl
  | cons ch cs ih => exact ih _

theorem leaveChannels_joined (cs : List String) (cli : Client) :
    (leaveChannels cli cs).joinedChannels = cli.joinedChannels := by
  induction cs generalizing cli with
  | nil => rfl
  | cons ch cs ih => exact ih _

theorem leaveChannels_provider (cs : List String) (cli : Client) :
    (leaveChannels cli cs).provider = cli.provider := by
  induction cs generalizing cli with
  | nil => rfl
  | cons ch cs ih => exact ih _

/-! ### The outstanding joins of a trace across one reconciliation pass -/

theorem outstanding_refreshChannels (cli : Client) (hconn : Connected cli = true)
    (hout : ∀ c, c ∈ outstanding cli.sent ↔ c ∈ cli.joinedChannels) (c : String) :
    c ∈ outstanding (refreshChannels cli).sent ↔ c ∈ cli.channels := by
  have hs : (refreshChannels cli).sent
      = cli.sent
        ++ ((cli.channels.filter (fun k => !decide (k ∈ cli.joinedChannels))).map
            (fun k => SubMsg.joinMsg cli.provider k))
        ++ ((cli.joinedChannels.filter (fun k => !decide (k ∈ cli.channels))).map
            (fun k => SubMsg.leaveMsg cli.provider k)) := by
    rw [refreshChannels_connected cli hconn]
  unfold outstanding at hout ⊢
  rw [hs, outstandingFrom_append, outstandingFrom_append,
    mem_outstandingFrom_leaves, mem_outstandingFrom_joins]
  have h1 := hout c
  simp only [List.mem_filter, Bool.not_eq_true', decide_eq_false_iff_not] at h1 ⊢
  tauto

theorem goodState_refreshChannels (t : Client) (hconn : Connected t = true)
    (hout : ∀ c, c ∈ outstanding t.sent ↔ c ∈ t.joinedChannels) :
    GoodState (refreshChannels t) := by
  refine ⟨?_, ?_, ?_⟩
  · show (refreshChannels t).ws = true
    rw [refreshChannels_ws]
    exact hconn
  · intro c
    rw [refreshChannels_joined t hconn]
    exact outstanding_refreshChannels t hconn hout c
  · intro c
    rw [refreshChannels_joined t hconn, refreshChannels_channels]

theorem goodState_applyOp (s : Client) (op : Op) (h : GoodState s) :
    GoodState (applyOp s op) := by
  obtain ⟨hconn, hout, _⟩ := h
  cases op with
  | joinOp cs =>
      apply goodState_refreshChannels
      · show (joinChannels s cs).ws = true
        rw [joinChannels_ws]
        exact hconn
      · intro c
        rw [joinChannels_sent, joinChannels_joined]
        exact hout c
  | leaveOp cs =>
      apply goodState_refreshChannels
      · show (leaveChannels s cs).ws = true
        rw [leaveChannels_ws]
        exact hconn
      · intro c
        rw [leaveChannels_sent, leaveChannels_joined]
        exact hout c
  | leaveAllOp =>
      apply goodState_refreshChannels
      · exact hconn
      · exact hout

theorem goodState_runOps (s : Client) (ops : List Op) (h : GoodState s) :
    GoodState (runOps s ops) := by
  induction ops generalizing s with
  | nil => exact h
  | cons op ops ih => exact ih _ (goodState_applyOp s op h)

/-! ### Message counts across one reconciliation pass -/

theorem count_joinMsg_refreshChannels (t : Client) (hconn : Connected t = true) (c : String) :
    (refreshChannels t).sent.count (SubMsg.joinMsg t.provider c)
      = t.sent.count (SubMsg.joinMsg t.provider c)
        + (t.channels.filter (fun k => !decide (k ∈ t.joinedChannels))).count c := by
  have hs : (refreshChannels t).sent
      = t.sent
        ++ ((t.channels.filter (fun k => !decide (k ∈ t.joinedChannels))).map
            (fun k => SubMsg.joinMsg t.provider k))
        ++ ((t.joinedChannels.filter (fun k => !decide (k ∈ t.channels))).map
            (fun k => SubMsg.leaveMsg t.provider k)) := by
    rw [refreshChannels_connected t hconn]
  rw [hs, List.count_append, List.count_append, count_joinMsg_map_join,
    count_joinMsg_map_leave]
  omega

theorem count_leaveMsg_refreshChannels (t : Client) (hconn : Connected t = true) (c : String) :
    (refreshChannels t).sent.count (SubMsg.leaveMsg t.provider c)
      = t.sent.count (SubMsg.leaveMsg t.provider c)
        + (t.joinedChannels.filter (fun k => !decide (k ∈ t.channels))).count c := by
  have hs : (refreshChannels t).sent
      = t.sent
        ++ ((t.channels.filter (fun k => !decide (k ∈ t.joinedChannels))).map
            (fun k => SubMsg.joinMsg t.provider k))
        ++ ((t.joinedChannels.filter (fun k => !decide (k ∈ t.channels))).map
            (fun k => SubMsg.leaveMsg t.provider k)) := by
    rw [refreshChannels_connected t hconn]
  rw [hs, List.count_append, List.count_append, count_leaveMsg_map_join,
    count_leaveMsg_map_leave]
  omega

/-! ### Repeated `Join` of an already-present channel -/

theorem join_already_present (t : Client) (c : String)
    (hcD : c ∈ t.channels) (htrim : trimSpace c = c) :
    Join t [c] = refreshChannels t := by
  show refreshChannels (joinChannels t [c]) = refreshChannels t
  congr 1
  show { t with channels := mapInsert (trimSpace c) t.channels } = t
  rw [htrim, mapInsert_of_mem c t.channels hcD]

theorem join_repeat_state (s : Client) (c : String) (n : Nat)
    (hconn : Connected s = true) (hcD : c ∈ s.channels) (hcJ : c ∈ s.joinedChannels)
    (htrim : trimSpace c = c) :
    ((fun u => Join u [c])^[n] s).channels = s.channels ∧
    c ∈ ((fun u => Join u [c])^[n] s).joinedChannels ∧
    ((fun u => Join u [c])^[n] s).provider = s.provider ∧
    Connected ((fun u => Join u [c])^[n] s) = true ∧
    ((fun u => Join u [c])^[n] s).sent.count (SubMsg.joinMsg s.provider c)
      = s.sent.count (SubMsg.joinMsg s.provider c) ∧
    (1 ≤ n → ((fun u => Join u [c])^[n] s).joinedChannels = s.channels) := by
  induction n with
  | zero =>
      exact ⟨rfl, hcJ, rfl, hconn, rfl, fun h => absurd h (by decide)⟩
  | succ n ih =>
      obtain ⟨ih1, ih2, ih3, ih4, ih5, _⟩ := ih
      rw [Function.iterate_succ_apply']
      have hstep : Join ((fun u => Join u [c])^[n] s) [c]
          = refreshChannels ((fun u => Join u [c])^[n] s) :=
        join_already_present _ c (ih1 ▸ hcD) htrim
      rw [hstep]
      refine ⟨?_, ?_, ?_, ?_, ?_, ?_⟩
      · rw [refreshChannels_channels, ih1]
      · rw [refreshChannels_joined _ ih4, ih1]
        exact hcD
      · rw [refreshChannels_provider, ih3]
      · show (refreshChannels _).ws = true
        rw [refreshChannels_ws]
        exact ih4
      · have hc := count_joinMsg_refreshChannels _ ih4 c
        rw [ih3] at hc
        rw [hc, ih5]
        have hz : ((((fun u => Join u [c])^[n] s).channels).filter
            (fun k => !decide (k ∈ ((fun u => Join u [c])^[n] s).joinedChannels))).count c
            = 0 := by
          apply List.count_eq_zero_of_not_mem
          simp only [List.mem_filter, Bool.not_eq_true', decide_eq_false_iff_not]
          exact fun h => absurd ih2 h.2
        rw [hz]
        omega
      · intro _h
        rw [refreshChannels_joined _ ih4, ih1]

/-! ### A channel outside both sets stays out and never gets a leave -/

theorem joinChannels_not_mem (cs : List String) (cli : Client) (c : String)
    (hc : c ∉ cli.channels) (hcs : ∀ ch ∈ cs, trimSpace ch ≠ c) :
    c ∉ (joinChannels cli cs).channels := by
  induction cs generalizing cli with
  | nil => exact hc
  | cons k cs ih =>
      apply ih
      · intro hmem
        rcases (mem_mapInsert c (trimSpace k) cli.channels).mp hmem with h1 | h1
        · exact hcs k (List.mem_cons_self k cs) h1.symm
        · exact hc h1
      · intro ch hch
        exact hcs ch (List.mem_cons_of_mem _ hch)

theorem leaveChannels_not_mem (cs : List String) (cli : Client) (c : String)
    (hc : c ∉ cli.channels) :
    c ∉ (leaveChannels cli cs).channels := by
  induction cs generalizing cli with
  | nil => exact hc
  | cons k cs ih =>
      apply ih
      intro hmem
      exact hc ((mem_mapDelete c (trimSpace k) cli.channels).mp hmem).1

theorem avoids_refreshChannels (p : Provider) (c : String) (n : Nat) (t : Client)
    (h : AvoidsChannel p c n t) : AvoidsChannel p c n (refreshChannels t) := by
  obtain ⟨hp, hD, hJ, hcount⟩ := h
  cases hb : Connected t with
  | false =>
      rw [refreshChannels_not_connected t hb]
      exact ⟨hp, hD, hJ, hcount⟩
  | true =>
      refine ⟨by rw [refreshChannels_provider]; exact hp,
              by rw [refreshChannels_channels]; exact hD,
              by rw [refreshChannels_joined t hb]; exact hD, ?_⟩
      have hc := count_leaveMsg_refreshChannels t hb c
      rw [hp] at hc
      rw [hc, hcount]
      have hz : ((t.joinedChannels).filter (fun k => !decide (k ∈ t.channels))).count c
          = 0 := by
        apply List.count_eq_zero_of_not_mem
        simp only [List.mem_filter, Bool.not_eq_true', decide_eq_false_iff_not]
        exact fun hmem => absurd hmem.1 hJ
      rw [hz]
      omega

theorem avoids_applyOp (p : Provider) (c : String) (n : Nat) (t : Client) (op : Op)
    (hop : opCanJoin c op = false) (h : AvoidsChannel p c n t) :
    AvoidsChannel p c n (applyOp t op) := by
  obtain ⟨hp, hD, hJ, hcount⟩ := h
  cases op with
  | joinOp cs =>
      apply avoids_refreshChannels
      refine ⟨by rw [joinChannels_provider]; exact hp, ?_,
              by rw [joinChannels_joined]; exact hJ,
              by rw [joinChannels_sent]; exact hcount⟩
      apply joinChannels_not_mem cs t c hD
      intro ch hch e
      have htrue : opCanJoin c (Op.joinOp cs) = true := by
        simp only [opCanJoin, List.any_eq_true, decide_eq_true_eq]
        exact ⟨ch, hch, e⟩
      rw [hop] at htrue
      exact Bool.false_ne_true htrue
  | leaveOp cs =>
      apply avoids_refreshChannels
      exact ⟨by rw [leaveChannels_provider]; exact hp,
             leaveChannels_not_mem cs t c hD,
             by rw [leaveChannels_joined]; exact hJ,
             by rw [leaveChannels_sent]; exact hcount⟩
  | leaveAllOp =>
      apply avoids_refreshChannels
      exact ⟨hp, by simp, hJ, hcount⟩

theorem avoids_runOps (p : Provider) (c : String) (n : Nat) (ops : List Op) :
    ∀ t : Client, (∀ op ∈ ops, opCanJoin c op = false) → AvoidsChannel p c n t →
      AvoidsChannel p c n (runOps t ops) := by
  induction ops with
  | nil => exact fun _ _ h => h
  | cons op ops ih =>
      intro t hops h
      exact ih _ (fun o ho => hops o (List.mem_cons_of_mem _ ho))
        (avoids_applyOp p c n t op (hops op (List.mem_cons_self op ops)) h)

/-! ### Claim theorems -/

/-- C10: For every username, password and provider value — recognized
or not — `New` returns a client whose desired and joined channel sets
are both empty, with no message enqueued, and `Connected()` reports
false; construction performs no provider validation and never fails
(it stores any provider unchanged). -/
theorem C10_new_initial_state (u pw : String) (p : Provider) :
    (New u pw p).channels = [] ∧
    (New u pw p).joinedChannels = [] ∧
    Connected (New u pw p) = false ∧
    (New u pw p).provider = p ∧
    (New u pw p).username = u ∧
    (New u pw p).password = pw ∧
    (New u pw p).sent = [] :=
  ⟨rfl, rfl, rfl, rfl, rfl, rfl, rfl⟩

/-- C4: `Disconnect` on a client that is not connected (in particular
before any `Connect`) returns success (`nil` error, modelled `none`)
and changes no state; and after any `Disconnect`, a second call in
succession returns success with no additional effect. -/
theorem C4_disconnect_idempotent (s : Client) (h : Connected s = false) :
    Disconnect s = (none, s) ∧
    (∀ t : Client, Disconnect (Disconnect t).2 = (none, (Disconnect t).2)) := by
  constructor
  · unfold Disconnect
    rw [if_pos h]
  · intro t
    cases hb : Connected t with
    | false =>
        have h1 : Disconnect t = (none, t) := by
          unfold Disconnect
          rw [if_pos hb]
        rw [h1]
        exact h1
    | true =>
        by_cases hc : t.closing
        · have h1 : Disconnect t = (none, t) := by
            unfold Disconnect
            rw [if_neg (by simp [hb]), if_pos hc]
          rw [h1]
          exact h1
        · have h1 : Disconnect t = (none, { t with ws := false, closing := false }) := by
            unfold Disconnect
            rw [if_neg (by simp [hb]), if_neg hc]
          rw [h1]
          rfl

/-- Witness for C4: a freshly constructed client is not connected;
`Disconnect` is a successful no-op there, and a second `Disconnect`
after disconnecting a connected client is also a successful no-op. -/
theorem C4_witness :
    Disconnect (New "user" "pass" IEX) = (none, New "user" "pass" IEX) ∧
    Disconnect (Disconnect sampleConnected).2 = (none, (Disconnect sampleConnected).2) :=
  ⟨(C4_disconnect_idempotent (New "user" "pass" IEX) (by decide)).1,
   (C4_disconnect_idempotent (New "user" "pass" IEX) (by decide)).2 sampleConnected⟩

/-- C5 counterexample: with the unrecognized provider "bogus",
construction raises nothing — `New` succeeds and stores the provider
unvalidated — while every message-construction and endpoint function
aborts at runtime (`panic`, modelled as `none`), contradicting the
claim that the failure occurs at construction time and never during
message construction. -/
theorem C5_counterexample :
    New "user" "pass" ⟨"bogus"⟩
      = { debugMode := false, username := "user", password := "pass",
          provider := ⟨"bogus"⟩, token := "", ws := false, channels := [],
          joinedChannels := [], closing := false, sent := [] } ∧
    makeAuthURL ⟨"bogus"⟩ = none ∧
    makeSoketURL ⟨"bogus"⟩ "tok" = none ∧
    makeJoinMessage ⟨"bogus"⟩ "AAPL" = none ∧
    makeLeaveMessage ⟨"bogus"⟩ "AAPL" = none ∧
    makeHeartbeatMessage ⟨"bogus"⟩ 0 = none :=
  ⟨rfl, rfl, rfl, rfl, rfl, rfl⟩

/-- C5 amended: construction never validates the provider — `New`
succeeds for every provider value — and for every provider outside
the recognized set the failure is instead a runtime abort: every
endpoint and message-construction function panics (modelled `none`). -/
theorem C5_amended_runtime_abort (p : Provider) (u pw token ch : String) (now : Int)
    (hp1 : p ≠ IEX) (hp2 : p ≠ QUODD) :
    (New u pw p).provider = p ∧
    Connected (New u pw p) = false ∧
    makeAuthURL p = none ∧
    makeSoketURL p token = none ∧
    makeJoinMessage p ch = none ∧
    makeLeaveMessage p ch = none ∧
    makeHeartbeatMessage p now = none := by
  refine ⟨rfl, rfl, ?_, ?_, ?_, ?_, ?_⟩
  · unfold makeAuthURL
    rw [if_neg hp1, if_neg hp2]
  · unfold makeSoketURL
    rw [if_neg hp1, if_neg hp2]
  · unfold makeJoinMessage
    rw [if_neg hp1, if_neg hp2]
  · unfold makeLeaveMessage
    rw [if_neg hp1, if_neg hp2]
  · unfold makeHeartbeatMessage
    rw [if_neg hp1, if_neg hp2]

/-- Witness for the amended C5 at the concrete provider "bogus". -/
theorem C5_amended_witness :
    (New "user" "pass" ⟨"bogus"⟩).provider = ⟨"bogus"⟩ ∧
    Connected (New "user" "pass" ⟨"bogus"⟩) = false ∧
    makeAuthURL ⟨"bogus"⟩ = none ∧
    makeSoketURL ⟨"bogus"⟩ "tok" = none ∧
    makeJoinMessage ⟨"bogus"⟩ "AAPL" = none ∧
    makeLeaveMessage ⟨"bogus"⟩ "AAPL" = none ∧
    makeHeartbeatMessage ⟨"bogus"⟩ 0 = none :=
  C5_amended_runtime_abort ⟨"bogus"⟩ "user" "pass" "tok" "AAPL" 0 (by decide) (by decide)

/-- C6: For provider IEX, every outbound join and leave wire message
has exactly the shape with fields topic, event, empty payload object
and null ref (events "phx_join"/"phx_leave"; the heartbeat uses event
"heartbeat" on the fixed topic "phoenix"), and the topic is derived
from the channel name: the two reserved names map to the fixed
broadcast topics and every other name to the per-security topic. -/
theorem C6_iex_message_shape (ch : String) (now : Int) :
    SubMsg.wire (SubMsg.joinMsg IEX ch)
      = some (.obj [("topic", .str (parseTopic ch)), ("event", .str "phx_join"),
                    ("payload", .obj []), ("ref", .null)]) ∧
    SubMsg.wire (SubMsg.leaveMsg IEX ch)
      = some (.obj [("topic", .str (parseTopic ch)), ("event", .str "phx_leave"),
                    ("payload", .obj []), ("ref", .null)]) ∧
    makeHeartbeatMessage IEX now
      = some (.obj [("topic", .str "phoenix"), ("event", .str "heartbeat"),
                    ("payload", .obj []), ("ref", .null)]) ∧
    parseTopic "$lobby" = "iex:lobby" ∧
    parseTopic "$lobby_last_price" = "iex:lobby:last_price" ∧
    (ch ≠ "$lobby" → ch ≠ "$lobby_last_price" → parseTopic ch = "iex:securities:" ++ ch) := by
  refine ⟨rfl, rfl, rfl, rfl, rfl, ?_⟩
  intro h1 h2
  unfold parseTopic
  rw [if_neg h1, if_neg h2]

/-- Witness for C6 at the concrete channel "GE". -/
theorem C6_witness :
    SubMsg.wire (SubMsg.joinMsg IEX "GE")
      = some (.obj [("topic", .str (parseTopic "GE")), ("event", .str "phx_join"),
                    ("payload", .obj []), ("ref", .null)]) ∧
    parseTopic "GE" = "iex:securities:" ++ "GE" :=
  ⟨(C6_iex_message_shape "GE" 0).1,
   (C6_iex_message_shape "GE" 0).2.2.2.2.2 (by decide) (by decide)⟩

/-- C1: While connected, a single reconciliation pass enqueues exactly
one join message for each channel desired but not joined, followed by
exactly one leave message for each channel joined but no longer
desired — all join messages before any leave message, never
interleaved — and afterwards the joined set equals the desired set. -/
theorem C1_reconciliation_pass (s : Client) (hconn : Connected s = true)
    (hD : s.channels.Nodup) (hJ : s.joinedChannels.Nodup) :
    ∃ joins leaves : List SubMsg,
      (refreshChannels s).sent = s.sent ++ joins ++ leaves ∧
      (∀ m ∈ joins, ∃ c, m = SubMsg.joinMsg s.provider c) ∧
      (∀ m ∈ leaves, ∃ c, m = SubMsg.leaveMsg s.provider c) ∧
      (∀ c, joins.count (SubMsg.joinMsg s.provider c)
          = if c ∈ s.channels ∧ c ∉ s.joinedChannels then 1 else 0) ∧
      (∀ c, leaves.count (SubMsg.leaveMsg s.provider c)
          = if c ∈ s.joinedChannels ∧ c ∉ s.channels then 1 else 0) ∧
      (refreshChannels s).joinedChannels = s.channels := by
  refine ⟨(s.channels.filter (fun k => !decide (k ∈ s.joinedChannels))).map
      (fun k => SubMsg.joinMsg s.provider k),
    (s.joinedChannels.filter (fun k => !decide (k ∈ s.channels))).map
      (fun k => SubMsg.leaveMsg s.provider k), ?_, ?_, ?_, ?_, ?_, ?_⟩
  · rw [refreshChannels_connected s hconn]
  · intro m hm
    rcases List.mem_map.mp hm with ⟨k, _, rfl⟩
    exact ⟨k, rfl⟩
  · intro m hm
    rcases List.mem_map.mp hm with ⟨k, _, rfl⟩
    exact ⟨k, rfl⟩
  · intro c
    rw [count_joinMsg_map_join, List.count_eq_of_nodup (hD.filter _)]
    have hiff : c ∈ s.channels.filter (fun k => !decide (k ∈ s.joinedChannels))
        ↔ (c ∈ s.channels ∧ c ∉ s.joinedChannels) := by
      simp [List.mem_filter]
    by_cases h2 : c ∈ s.channels ∧ c ∉ s.joinedChannels
    · rw [if_pos h2, if_pos (hiff.mpr h2)]
    · rw [if_neg h2, if_neg (fun hmem => h2 (hiff.mp hmem))]
  · intro c
    rw [count_leaveMsg_map_leave, List.count_eq_of_nodup (hJ.filter _)]
    have hiff : c ∈ s.joinedChannels.filter (fun k => !decide (k ∈ s.channels))
        ↔ (c ∈ s.joinedChannels ∧ c ∉ s.channels) := by
      simp [List.mem_filter]
    by_cases h2 : c ∈ s.joinedChannels ∧ c ∉ s.channels
    · rw [if_pos h2, if_pos (hiff.mpr h2)]
    · rw [if_neg h2, if_neg (fun hmem => h2 (hiff.mp hmem))]
  · exact refreshChannels_joined s hconn

/-- Witness for C1 at a concrete mid-session state. -/
theorem C1_witness :
    ∃ joins leaves : List SubMsg,
      (refreshChannels sampleDiff).sent = sampleDiff.sent ++ joins ++ leaves ∧
      (∀ m ∈ joins, ∃ c, m = SubMsg.joinMsg sampleDiff.provider c) ∧
      (∀ m ∈ leaves, ∃ c, m = SubMsg.leaveMsg sampleDiff.provider c) ∧
      (∀ c, joins.count (SubMsg.joinMsg sampleDiff.provider c)
          = if c ∈ sampleDiff.channels ∧ c ∉ sampleDiff.joinedChannels then 1 else 0) ∧
      (∀ c, leaves.count (SubMsg.leaveMsg sampleDiff.provider c)
          = if c ∈ sampleDiff.joinedChannels ∧ c ∉ sampleDiff.channels then 1 else 0) ∧
      (refreshChannels sampleDiff).joinedChannels = sampleDiff.channels :=
  C1_reconciliation_pass sampleDiff (by decide) (by decide) (by decide)

/-- C2: Starting from a connected client whose trace, joined set and
desired set agree (as after any reconciliation pass, or freshly
connected with all empty), after any sequence of Join/Leave/LeaveAll
calls — each running its own reconciliation pass — the set of channels
with an outstanding join in the trace (a join enqueued with no later
leave) equals the final desired set. -/
theorem C2_convergence (s : Client) (ops : List Op) (hconn : Connected s = true)
    (hout : ∀ c, c ∈ outstanding s.sent ↔ c ∈ s.joinedChannels)
    (hJD : ∀ c, c ∈ s.joinedChannels ↔ c ∈ s.channels) :
    ∀ c, c ∈ outstanding (runOps s ops).sent ↔ c ∈ (runOps s ops).channels := by
  have h := goodState_runOps s ops ⟨hconn, hout, hJD⟩
  exact fun c => (h.2.1 c).trans (h.2.2 c)

/-- Witness for C2: join two channels then leave one, checked at the
channel that stays subscribed. -/
theorem C2_witness :
    ("MSFT" ∈ outstanding (runOps sampleConnected
        [Op.joinOp ["AAPL", "MSFT"], Op.leaveOp ["AAPL"]]).sent)
      ↔ "MSFT" ∈ (runOps sampleConnected
        [Op.joinOp ["AAPL", "MSFT"], Op.leaveOp ["AAPL"]]).channels :=
  C2_convergence sampleConnected [Op.joinOp ["AAPL", "MSFT"], Op.leaveOp ["AAPL"]]
    (by decide) (fun _ => Iff.rfl) (fun _ => Iff.rfl) "MSFT"

/-- C8: While not connected, any Join/Leave/LeaveAll call mutates only
the desired set: no message is enqueued, the joined set is untouched,
and every other field of the client is unchanged. -/
theorem C8_offline_ops_frame (s : Client) (op : Op) (h : Connected s = false) :
    (applyOp s op).sent = s.sent ∧
    (applyOp s op).joinedChannels = s.joinedChannels ∧
    applyOp s op = { s with channels := (applyOp s op).channels } := by
  have key : applyOp s op = { s with channels := (applyOp s op).channels } := by
    cases op with
    | joinOp cs =>
        have hw : Connected (joinChannels s cs) = false := by
          show (joinChannels s cs).ws = false
          rw [joinChannels_ws]
          exact h
        show refreshChannels (joinChannels s cs)
            = { s with channels := (refreshChannels (joinChannels s cs)).channels }
        rw [refreshChannels_not_connected _ hw]
        exact joinChannels_eq cs s
    | leaveOp cs =>
        have hw : Connected (leaveChannels s cs) = false := by
          show (leaveChannels s cs).ws = false
          rw [leaveChannels_ws]
          exact h
        show refreshChannels (leaveChannels s cs)
            = { s with channels := (refreshChannels (leaveChannels s cs)).channels }
        rw [refreshChannels_not_connected _ hw]
        exact leaveChannels_eq cs s
    | leaveAllOp =>
        have hw : Connected { s with channels := ([] : List String) } = false := h
        show refreshChannels { s with channels := ([] : List String) }
            = { s with channels :=
                  (refreshChannels { s with channels := ([] : List String) }).channels }
        rw [refreshChannels_not_connected _ hw]
  refine ⟨?_, ?_, key⟩
  · rw [key]
  · rw [key]

/-- Witness for C8: joining on a freshly constructed (disconnected)
client enqueues nothing and touches only the desired set. -/
theorem C8_witness :
    (applyOp (New "user" "pass" IEX) (Op.joinOp ["AAPL"])).sent
      = (New "user" "pass" IEX).sent ∧
    (applyOp (New "user" "pass" IEX) (Op.joinOp ["AAPL"])).joinedChannels
      = (New "user" "pass" IEX).joinedChannels ∧
    applyOp (New "user" "pass" IEX) (Op.joinOp ["AAPL"])
      = { New "user" "pass" IEX with
          channels := (applyOp (New "user" "pass" IEX) (Op.joinOp ["AAPL"])).channels } :=
  C8_offline_ops_frame (New "user" "pass" IEX) (Op.joinOp ["AAPL"]) (by decide)

/-- C3: Calling `Join(c)` any number n ≥ 1 of times while `c` is
already desired and joined enqueues no duplicate join message for `c`
(the count of join messages for `c` in the trace is unchanged), and
once `c` is then removed from the desired set by `Leave(c)`, exactly
one leave message for `c` is enqueued. -/
theorem C3_no_duplicate_join (s : Client) (c : String) (n : Nat)
    (hconn : Connected s = true) (hcD : c ∈ s.channels) (hcJ : c ∈ s.joinedChannels)
    (htrim : trimSpace c = c) (hD : s.channels.Nodup) (hn : 1 ≤ n) :
    ((fun u => Join u [c])^[n] s).sent.count (SubMsg.joinMsg s.provider c)
        = s.sent.count (SubMsg.joinMsg s.provider c) ∧
    (Leave ((fun u => Join u [c])^[n] s) [c]).sent.count (SubMsg.leaveMsg s.provider c)
        = ((fun u => Join u [c])^[n] s).sent.count (SubMsg.leaveMsg s.provider c) + 1 := by
  obtain ⟨h1, _h2, h3, h4, h5, h6⟩ := join_repeat_state s c n hconn hcD hcJ htrim
  refine ⟨h5, ?_⟩
  set t := (fun u => Join u [c])^[n] s with ht
  have hJn : t.joinedChannels = s.channels := h6 hn
  have ht2 : leaveChannels t [c] = { t with channels := mapDelete c t.channels } := by
    show { t with channels := mapDelete (trimSpace c) t.channels } = _
    rw [htrim]
  have hu_ws : Connected (leaveChannels t [c]) = true := by
    show (leaveChannels t [c]).ws = true
    rw [leaveChannels_ws]
    exact h4
  have hu_prov : (leaveChannels t [c]).provider = s.provider := by
    rw [leaveChannels_provider]
    exact h3
  have hu_sent : (leaveChannels t [c]).sent = t.sent := leaveChannels_sent _ _
  have hu_join : (leaveChannels t [c]).joinedChannels = t.joinedChannels :=
    leaveChannels_joined _ _
  have hu_ch : (leaveChannels t [c]).channels = mapDelete c t.channels := by
    rw [ht2]
  have hc := count_leaveMsg_refreshChannels (leaveChannels t [c]) hu_ws c
  rw [hu_prov, hu_sent, hu_join, hu_ch, hJn, h1] at hc
  have hone : (s.channels.filter (fun k => !decide (k ∈ mapDelete c s.channels))).count c
      = 1 := by
    apply List.count_eq_one_of_mem (hD.filter _)
    simp only [List.mem_filter, Bool.not_eq_true', decide_eq_false_iff_not, mem_mapDelete]
    exact ⟨hcD, fun hmem => hmem.2 rfl⟩
  show (refreshChannels (leaveChannels t [c])).sent.count (SubMsg.leaveMsg s.provider c)
      = t.sent.count (SubMsg.leaveMsg s.provider c) + 1
  rw [hc, hone]

/-- Witness for C3: joining the already-joined channel "AAPL" twice,
then leaving it. -/
theorem C3_witness :
    ((fun u => Join u ["AAPL"])^[2] sampleJoined).sent.count
        (SubMsg.joinMsg sampleJoined.provider "AAPL")
      = sampleJoined.sent.count (SubMsg.joinMsg sampleJoined.provider "AAPL") ∧
    (Leave ((fun u => Join u ["AAPL"])^[2] sampleJoined) ["AAPL"]).sent.count
        (SubMsg.leaveMsg sampleJoined.provider "AAPL")
      = ((fun u => Join u ["AAPL"])^[2] sampleJoined).sent.count
          (SubMsg.leaveMsg sampleJoined.provider "AAPL") + 1 :=
  C3_no_duplicate_join sampleJoined "AAPL" 2 (by decide) (by decide) (by decide)
    (by decide) (by decide) (by decide)

/-- C7 counterexample: `Join` trims its argument but performs no
non-emptiness check: joining the whitespace-only string "  " on a
connected client inserts the empty-string channel into the desired set
and enqueues a join message for it, so an empty channel can both enter
the desired set and cause a join message, contrary to the claim. -/
theorem C7_counterexample :
    "" ∈ (Join sampleConnected ["  "]).channels ∧
    SubMsg.joinMsg IEX "" ∈ (Join sampleConnected ["  "]).sent := by
  decide

/-- C7 amended: every channel argument is trimmed before set
membership is tested — `Join` inserts and `Leave` deletes the trimmed
name — but no emptiness check is made: a whitespace-only argument
yields the empty-string channel, which enters the desired set (and a
join message is then emitted for it while connected). -/
theorem C7_trim_no_empty_check (s : Client) (ch : String) :
    (Join s [ch]).channels = mapInsert (trimSpace ch) s.channels ∧
    (Leave s [ch]).channels = mapDelete (trimSpace ch) s.channels ∧
    (trimSpace ch = "" → "" ∈ (Join s [ch]).channels) := by
  have h1 : (Join s [ch]).channels = mapInsert (trimSpace ch) s.channels := by
    show (refreshChannels (joinChannels s [ch])).channels = _
    rw [refreshChannels_channels]
    rfl
  refine ⟨h1, ?_, ?_⟩
  · show (refreshChannels (leaveChannels s [ch])).channels = _
    rw [refreshChannels_channels]
    rfl
  · intro he
    rw [h1]
    exact (mem_mapInsert "" (trimSpace ch) s.channels).mpr (Or.inl he.symm)

/-- Witness for the amended C7: joining "  " inserts the empty-string
channel. -/
theorem C7_amended_witness :
    (Join sampleConnected ["  "]).channels
      = mapInsert (trimSpace "  ") sampleConnected.channels ∧
    "" ∈ (Join sampleConnected ["  "]).channels :=
  ⟨(C7_trim_no_empty_check sampleConnected "  ").1,
   (C7_trim_no_empty_check sampleConnected "  ").2.2 (by decide)⟩

/-- C9: For a channel `c` neither in the desired set nor in the joined
set, `Leave(c)` leaves the desired set unchanged, and across any
subsequent sequence of Join/Leave/LeaveAll calls none of which joins
`c`, no leave message for `c` is ever enqueued — leave messages are
only emitted for channels present in the joined set. -/
theorem C9_leave_absent_noop (s : Client) (c : String) (ops : List Op)
    (hD : c ∉ s.channels) (hJ : c ∉ s.joinedChannels) (htrim : trimSpace c = c)
    (hops : ∀ op ∈ ops, opCanJoin c op = false) :
    (Leave s [c]).channels = s.channels ∧
    (runOps (Leave s [c]) ops).sent.count (SubMsg.leaveMsg s.provider c)
      = s.sent.count (SubMsg.leaveMsg s.provider c) := by
  have hdel : leaveChannels s [c] = s := by
    show { s with channels := mapDelete (trimSpace c) s.channels } = s
    rw [htrim, mapDelete_of_not_mem c s.channels hD]
  have hleave : Leave s [c] = refreshChannels s := by
    show refreshChannels (leaveChannels s [c]) = _
    rw [hdel]
  have havoid : AvoidsChannel s.provider c
      (s.sent.count (SubMsg.leaveMsg s.provider c)) (Leave s [c]) := by
    rw [hleave]
    exact avoids_refreshChannels _ _ _ _ ⟨rfl, hD, hJ, rfl⟩
  constructor
  · rw [hleave, refreshChannels_channels]
  · exact (avoids_runOps s.provider c _ ops (Leave s [c]) hops havoid).2.2.2

/-- Witness for C9: leaving the never-joined channel "MSFT", then
leaving all channels. -/
theorem C9_witness :
    (Leave sampleJoined ["MSFT"]).channels = sampleJoined.channels ∧
    (runOps (Leave sampleJoined ["MSFT"]) [Op.leaveAllOp]).sent.count
        (SubMsg.leaveMsg sampleJoined.provider "MSFT")
      = sampleJoined.sent.count (SubMsg.leaveMsg sampleJoined.provider "MSFT") :=
  C9_leave_absent_noop sampleJoined "MSFT" [Op.leaveAllOp] (by decide) (by decide)
    (by decide) (by decide)

end IntrinioRealtime
